import Mathlib

/-!
Verification development for the image-analysis backend (`app.py`).

The Python source is shallowly embedded over `List Char` (Python `str`)
and `ℚ` (Python float literals, all exact decimals here).  External
collaborators (the vision/language model transport, PIL, the PDF canvas,
the filesystem) are passed in as explicit `Except`/function-valued
oracles; every operation that can raise in Python (list indexing, the
model call, file operations) is modelled fallibly with `Except`, and the
Python `try/except` blocks are modelled by matching on the fallible
result exactly where the source catches.
-/

/-- Python `needle in hay` — substring containment on character lists. -/
def pyContains (hay needle : List Char) : Bool :=
  hay.tails.any fun t => needle.isPrefixOf t

/-- Python `s.lower()` (ASCII case mapping). -/
def pyLower (s : List Char) : List Char := s.map Char.toLower

/-- Drop elements satisfying `p` from the end of a list. -/
def stripEnd (p : Char → Bool) (s : List Char) : List Char :=
  (s.reverse.dropWhile p).reverse

/-- Python `s.strip()` — whitespace removed from both ends. -/
def pyStrip (s : List Char) : List Char :=
  stripEnd Char.isWhitespace (s.dropWhile Char.isWhitespace)

/-- Python `s.strip(chars)` — characters of the set removed from BOTH ends. -/
def pyStripChars (cs : List Char) (s : List Char) : List Char :=
  stripEnd (fun c => cs.contains c) (s.dropWhile (fun c => cs.contains c))

/-- Python `s.split(sep)` for a one-character separator. -/
def split1 (sep : Char) : List Char → List (List Char)
  | [] => [[]]
  | c :: rest =>
    if c == sep then [] :: split1 sep rest
    else
      match split1 sep rest with
      | [] => [[c]]
      | g :: gs => (c :: g) :: gs

/-- Python `s.split(sep)` for a two-character separator (left-to-right,
non-overlapping, exactly as CPython scans). -/
def split2 (a b : Char) : List Char → List (List Char)
  | [] => [[]]
  | [c] => [[c]]
  | c :: d :: rest =>
    if c == a && d == b then [] :: split2 a b rest
    else
      match split2 a b (d :: rest) with
      | [] => [[c]]
      | g :: gs => (c :: g) :: gs

/-- Helper for `pySplitWs`: scan accumulating the current token (reversed). -/
def splitWsTok : List Char → List Char → List (List Char)
  | [], acc => if acc.isEmpty then [] else [acc.reverse]
  | c :: rest, acc =>
    if c.isWhitespace then
      if acc.isEmpty then splitWsTok rest []
      else acc.reverse :: splitWsTok rest []
    else splitWsTok rest (c :: acc)

/-- Python `s.split()` — split on whitespace runs, no empty tokens. -/
def pySplitWs (s : List Char) : List (List Char) := splitWsTok s []

/-- Python `l[i]` — fallible list indexing (raises `IndexError`). -/
def pyGetItem {α : Type} (l : List α) (i : Nat) : Except (List Char) α :=
  match l.get? i with
  | some a => Except.ok a
  | none => Except.error "IndexError: list index out of range".toList

/-- `Except.isOk` spelled out, used to state "this call does not raise". -/
def isOkE {ε α : Type} : Except ε α → Bool
  | Except.ok _ => true
  | Except.error _ => false

/-- The structured annotation dictionaries built by `parse_claude_response`:
label text, confidence and a normalized `[x1, y1, x2, y2]` box. -/
structure Annotation where
  label : List Char
  confidence : ℚ
  bbox : List ℚ
deriving DecidableEq

/-- The `location_terms` dict of `parse_claude_response` (source order). -/
def location_terms : List (List Char × List ℚ) :=
  [("top-center".toList,    [mkRat 3 10, mkRat 1 10, mkRat 7 10, mkRat 4 10]),
   ("top-left".toList,      [mkRat 1 10, mkRat 1 10, mkRat 4 10, mkRat 4 10]),
   ("top-right".toList,     [mkRat 6 10, mkRat 1 10, mkRat 9 10, mkRat 4 10]),
   ("center".toList,        [mkRat 3 10, mkRat 3 10, mkRat 7 10, mkRat 7 10]),
   ("bottom-left".toList,   [mkRat 1 10, mkRat 6 10, mkRat 4 10, mkRat 9 10]),
   ("bottom-right".toList,  [mkRat 6 10, mkRat 6 10, mkRat 9 10, mkRat 9 10]),
   ("bottom-center".toList, [mkRat 3 10, mkRat 6 10, mkRat 7 10, mkRat 9 10])]

/-- The initial value `bbox = [0.3, 0.3, 0.7, 0.7]  # Default center`. -/
def defaultBbox : List ℚ := [mkRat 3 10, mkRat 3 10, mkRat 7 10, mkRat 7 10]

/-- The `for term, coords in location_terms.items(): if term in obj_info:
bbox = coords; break` loop, starting from the default box. -/
def findBbox : List (List Char × List ℚ) → List Char → List ℚ
  | [], _ => defaultBbox
  | (term, coords) :: rest, info =>
    if pyContains info term then coords else findBbox rest info

/-- The body of the per-object block of `parse_claude_response` (confidence
heuristic, location lookup, label truncation); list indexing modelled
fallibly. -/
def parseItemE (obj : List Char) : Except (List Char) Annotation :=
  let obj_info := pyLower (pyStrip obj)
  let confidence : ℚ :=
    if pyContains obj_info ("high confidence".toList) then mkRat 9 10 else mkRat 7 10
  let bbox := findBbox location_terms obj_info
  match pyGetItem (split1 ',' obj_info) 0 with
  | Except.error e => Except.error e
  | Except.ok label0 =>
    let label1 := pyStrip label0
    match pyGetItem (split1 '(' label1) 0 with
    | Except.error e => Except.error e
    | Except.ok label2 =>
      Except.ok { label := pyStrip label2, confidence := confidence, bbox := bbox }

/-- The `for obj in objects:` loop: skip fragments that strip to empty,
append one annotation per remaining fragment; an exception aborts the loop
carrying the annotations accumulated so far. -/
def processObjects : List (List Char) → List Annotation →
    List Annotation × Option (List Char)
  | [], acc => (acc, none)
  | obj :: rest, acc =>
    if (pyStrip obj).isEmpty then processObjects rest acc
    else
      match parseItemE obj with
      | Except.ok a => processObjects rest (acc ++ [a])
      | Except.error e => (acc, some e)

/-- Python dict assignment `d[k] = v` on an insertion-ordered association
list (existing key keeps its position, value replaced). -/
def dictSet (k v : List Char) : List (List Char × List Char) →
    List (List Char × List Char)
  | [] => [(k, v)]
  | (k', v') :: rest =>
    if k' = k then (k, v) :: rest else (k', v') :: dictSet k v rest

/-- One iteration of the `for section in sections:` dispatch of
`parse_claude_response` (state = annotations so far × analysis_sections). -/
def processSection (st : List Annotation × List (List Char × List Char))
    (sec : List Char) :
    (List Annotation × List (List Char × List Char)) × Option (List Char) :=
  if pyContains sec ("1. OBJECT IDENTIFICATION".toList) then
    let objects := (split2 '\n' '-' sec).drop 1
    let r := processObjects objects st.1
    ((r.1, st.2), r.2)
  else if pyContains sec ("2. DETAILED DESCRIPTION".toList) then
    ((st.1, dictSet ("detailed_description".toList) sec st.2), none)
  else if pyContains sec ("3. ENVIRONMENTAL CONTEXT".toList)
      || pyContains sec ("3. MEDICAL CONTEXT".toList)
      || pyContains sec ("3. PSYCHOLOGICAL CONTEXT".toList)
      || pyContains sec ("3. EDUCATIONAL CONTEXT".toList) then
    ((st.1, dictSet ("context".toList) sec st.2), none)
  else if pyContains sec ("4. TECHNICAL ASSESSMENT".toList) then
    ((st.1, dictSet ("technical_assessment".toList) sec st.2), none)
  else if pyContains sec ("5. SAFETY CONSIDERATIONS".toList)
      || pyContains sec ("5. CLINICAL CONSIDERATIONS".toList)
      || pyContains sec ("5. BEHAVIORAL CONSIDERATIONS".toList)
      || pyContains sec ("5. PEDAGOGICAL CONSIDERATIONS".toList) then
    ((st.1, dictSet ("considerations".toList) sec st.2), none)
  else if pyContains sec ("7. ADDITIONAL OBSERVATIONS".toList) then
    ((st.1, dictSet ("additional_observations".toList) sec st.2), none)
  else (st, none)

/-- The whole `for section in sections:` loop; an exception aborts it
carrying the state accumulated so far. -/
def parseLoop : List (List Char) →
    (List Annotation × List (List Char × List Char)) →
    (List Annotation × List (List Char × List Char)) × Option (List Char)
  | [], st => (st, none)
  | sec :: rest, st =>
    match processSection st sec with
    | (st', none) => parseLoop rest st'
    | (st', some e) => (st', some e)

/-- `parse_claude_response`: split the raw text on blank lines, run the
section loop; the `except` clause returns whatever `annotations` and
`analysis_sections` were accumulated when an exception occurred, so the
result is the accumulated state in both the clean and the aborted run. -/
def parse_claude_response (response_text : List Char) :
    List Annotation × List (List Char × List Char) :=
  (parseLoop (split2 '\n' '\n' response_text) ([], [])).1

/-- The `DOMAINS` configuration list. -/
def DOMAINS : List (List Char) :=
  ["healthcare".toList, "psychology".toList, "education".toList,
   "undersea".toList]

/-- The `valid_domains` set literal inside `detect_domain`. -/
def valid_domains : List (List Char) :=
  ["healthcare".toList, "psychology".toList, "education".toList,
   "undersea".toList]

/-- The `domain_mapping` synonym table of `detect_domain` (source order). -/
def domain_mapping : List (List Char × List Char) :=
  [("medical".toList, "healthcare".toList),
   ("health".toList, "healthcare".toList),
   ("clinical".toList, "healthcare".toList),
   ("psychological".toList, "psychology".toList),
   ("behavioral".toList, "psychology".toList),
   ("educational".toList, "education".toList),
   ("academic".toList, "education".toList),
   ("learning".toList, "education".toList),
   ("underwater".toList, "undersea".toList),
   ("marine".toList, "undersea".toList),
   ("aquatic".toList, "undersea".toList)]

/-- Python `d.get(k, default)` on an association list. -/
def dictGet (k dflt : List Char) : List (List Char × List Char) → List Char
  | [] => dflt
  | (k', v) :: rest => if k' = k then v else dictGet k dflt rest

/-- The post-processing of the model reply inside `detect_domain`'s `try`
block: strip+lower, take the first whitespace token (list indexing
modelled fallibly, guarded by the truthiness test as in the source),
strip the punctuation set `.:!?` from both ends, then validate against
`valid_domains` and fall back to the synonym table with default
`'undersea'`. -/
def detect_domain_post (reply : List Char) : Except (List Char) (List Char) :=
  let d0 := pyLower (pyStrip reply)
  match (if d0.isEmpty then Except.ok ("undersea".toList)
      else pyGetItem (pySplitWs d0) 0) with
  | Except.error e => Except.error e
  | Except.ok d1 =>
    let d2 := pyStripChars (".:!?".toList) d1
    if d2 ∈ valid_domains then Except.ok d2
    else Except.ok (dictGet d2 ("undersea".toList) domain_mapping)

/-- `detect_domain`: the transport/model call is the `Except`-valued input;
the `except` clause maps any exception (transport or post-processing) to
the default domain `'undersea'`. -/
def detect_domain (api : Except (List Char) (List Char)) : List Char :=
  match api with
  | Except.error _ => "undersea".toList
  | Except.ok reply =>
    match detect_domain_post reply with
    | Except.ok d => d
    | Except.error _ => "undersea".toList

/-- The code's token pipeline written as a total function (used to state
claims about which first tokens are recognized). -/
def normalizeFirstToken (reply : List Char) : List Char :=
  let d0 := pyLower (pyStrip reply)
  let d1 := if d0.isEmpty then "undersea".toList else (pySplitWs d0).headD []
  pyStripChars (".:!?".toList) d1

/-- The size of the image opened by PIL inside `annotate_image`. -/
structure PILImage where
  width : Int
  height : Int
deriving DecidableEq

/-- Oracle for the external PIL operations of `annotate_image`: the result
of `Image.open`/`convert` and of `img.save`, plus the timestamp used in the
output filename. -/
structure AnnotateEnv where
  openResult : Except (List Char) PILImage
  saveResult : Except (List Char) Unit
  ts : List Char

/-- Python `int(q)` — truncation toward zero. -/
def pyInt (q : ℚ) : Int := Int.tdiv q.num (Int.ofNat q.den)

/-- One drawing pass of the `for ann in annotations:` loop: the pixel
rectangle, the 2-tier colour, and the label data handed to the (external)
draw primitives. -/
structure DrawCmd where
  rect : Int × Int × Int × Int
  color : Nat × Nat × Nat
  labelText : List Char
  conf : ℚ
deriving DecidableEq

/-- Per-annotation body of the drawing loop of `annotate_image`; the
`bbox[0] .. bbox[3]` subscripts are modelled fallibly. -/
def annToCmdE (img : PILImage) (ann : Annotation) : Except (List Char) DrawCmd := do
  let b0 ← pyGetItem ann.bbox 0
  let b1 ← pyGetItem ann.bbox 1
  let b2 ← pyGetItem ann.bbox 2
  let b3 ← pyGetItem ann.bbox 3
  let x1 := pyInt (b0 * (img.width : ℚ))
  let y1 := pyInt (b1 * (img.height : ℚ))
  let x2 := pyInt (b2 * (img.width : ℚ))
  let y2 := pyInt (b3 * (img.height : ℚ))
  let color : Nat × Nat × Nat :=
    if mkRat 8 10 ≤ ann.confidence then (255, 0, 0) else (255, 165, 0)
  pure { rect := (x1, y1, x2, y2), color := color,
         labelText := ann.label, conf := ann.confidence }

/-- The `try` body of `annotate_image`: open the image, draw every
annotation, save under `temp/annotated_<timestamp>.jpg`, return that path
together with the emitted draw commands. -/
def annotate_imageE (env : AnnotateEnv) (image_path : List Char)
    (annotations : List Annotation) :
    Except (List Char) (List Char × List DrawCmd) :=
  match env.openResult with
  | Except.error e => Except.error e
  | Except.ok img =>
    match annotations.mapM (annToCmdE img) with
    | Except.error e => Except.error e
    | Except.ok cmds =>
      match env.saveResult with
      | Except.error e => Except.error e
      | Except.ok _ =>
        Except.ok ("temp/annotated_".toList ++ env.ts ++ ".jpg".toList, cmds)

/-- `annotate_image`: the `except` clause returns the ORIGINAL input path
unchanged on any exception. -/
def annotate_image (env : AnnotateEnv) (image_path : List Char)
    (annotations : List Annotation) : List Char :=
  match annotate_imageE env image_path annotations with
  | Except.ok r => r.1
  | Except.error _ => image_path

/-- Oracle for `generate_pdf_report`: the on-disk state probed by
`os.path.exists` and the timestamp used in the report filename. -/
structure ReportEnv where
  existsFn : List Char → Bool
  ts : List Char

/-- The report filename `report_<domain>_<timestamp>.pdf`. -/
def reportName (env : ReportEnv) (domain : List Char) : List Char :=
  "report_".toList ++ domain ++ "_".toList ++ env.ts ++ ".pdf".toList

/-- `generate_pdf_report`.  The canvas drawing primitives are external;
modelled is the control flow that decides the output: the filename, and
the short-circuiting `os.path.exists(image_path) and
os.path.exists(annotated_path)` guard for the side-by-side image row,
where `os.path.exists(None)` raises `TypeError`.  The `except` clause
re-raises, so the function is `Except`-valued.  The Boolean in the result
records whether the image row was drawn. -/
def generate_pdf_report (env : ReportEnv) (analysis_results : List Char)
    (analysis_sections : List (List Char × List Char)) (domain : List Char)
    (image_path : List Char) (annotations : List Annotation)
    (annotated_path : Option (List Char)) :
    Except (List Char) (List Char × Bool) :=
  let filename := reportName env domain
  if env.existsFn image_path then
    match annotated_path with
    | none =>
      Except.error
        "TypeError: stat: path should be string, bytes, os.PathLike or integer, not NoneType".toList
    | some p => Except.ok (filename, env.existsFn p)
  else Except.ok (filename, false)

/-- The JSON responses of the `/analyze` route. -/
inductive HttpResponse where
  | success (domain : List Char) (analysis : List Char)
      (analysis_sections : List (List Char × List Char))
      (annotations : List Annotation) (report_url : List Char)
  | failure (code : Nat) (msg : List Char)

/-- Oracles for one `/analyze` request: presence of the upload, the result
of `image.save`, the two model transports, the PIL and report oracles, the
on-disk state seen by the cleanup loop and the outcome of each
`os.remove`, and the timestamp of the uploaded temp file. -/
structure AnalyzeEnv where
  hasImage : Bool
  saveResult : Except (List Char) Unit
  detectApi : Except (List Char) (List Char)
  analyzeApi : Except (List Char) (List Char)
  annotateEnv : AnnotateEnv
  reportEnv : ReportEnv
  existsAtCleanup : List Char → Bool
  removeOk : List Char → Bool
  ts : List Char

/-- The uploaded temp file path `temp/temp_<timestamp>.jpg`. -/
def tempImagePath (env : AnalyzeEnv) : List Char :=
  "temp/temp_".toList ++ env.ts ++ ".jpg".toList

/-- The cleanup loop `for temp_file in temp_files: if os.path.exists:
os.remove` — it visits every accumulated temp file and records whether
the file was actually removed; failures are swallowed. -/
def cleanupTrace (env : AnalyzeEnv) (files : List (List Char)) :
    List (List Char × Bool) :=
  files.map fun f => (f, env.existsAtCleanup f && env.removeOk f)

/-- The `/analyze` handler: validate the upload, save it, classify,
analyze (may raise), parse, annotate, build the report (may raise), and on
every exit path run the cleanup loop over the `temp_files` accumulated so
far.  The second component is the cleanup trace of that exit path. -/
def analyze (env : AnalyzeEnv) : HttpResponse × List (List Char × Bool) :=
  if env.hasImage = false then
    (HttpResponse.failure 400 ("No image provided".toList), [])
  else
    let image_path := tempImagePath env
    match env.saveResult with
    | Except.error e => (HttpResponse.failure 500 e, cleanupTrace env [])
    | Except.ok _ =>
      let temp_files := [image_path]
      let domain := detect_domain env.detectApi
      match env.analyzeApi with
      | Except.error e => (HttpResponse.failure 500 e, cleanupTrace env temp_files)
      | Except.ok analysis_results =>
        let pr := parse_claude_response analysis_results
        let annotations := pr.1
        let analysis_sections := pr.2
        let annotated_path := annotate_image env.annotateEnv image_path annotations
        let temp_files :=
          if annotated_path ≠ image_path then temp_files ++ [annotated_path]
          else temp_files
        match generate_pdf_report env.reportEnv analysis_results
            analysis_sections domain image_path annotations
            (some annotated_path) with
        | Except.error e =>
          (HttpResponse.failure 500 e, cleanupTrace env temp_files)
        | Except.ok rep =>
          (HttpResponse.success domain analysis_results analysis_sections
              annotations ("/reports/".toList ++ rep.1),
           cleanupTrace env temp_files)

/-! ### Character-level facts about `Char.toLower` -/

theorem char_toNat_ofNat (n : Nat) (h : n.isValidChar) :
    (Char.ofNat n).toNat = n := by
  unfold Char.ofNat
  rw [dif_pos h]
  rfl

/-- `Char.toLower` fixes every character whose code is below 65 and maps
nothing onto such a character except itself. -/
theorem toLower_eq_low_iff (c d : Char) (hd : d.toNat < 65) :
    Char.toLower c = d ↔ c = d := by
  unfold Char.toLower
  by_cases h : c.toNat ≥ 65 ∧ c.toNat ≤ 90
  · rw [if_pos h]
    constructor
    · intro he
      exfalso
      have h1 : (Char.ofNat (c.toNat + 32)).toNat = c.toNat + 32 :=
        char_toNat_ofNat _ (Or.inl (by omega))
      have h2 := congrArg Char.toNat he
      rw [h1] at h2
      omega
    · intro he
      exfalso
      have h2 := congrArg Char.toNat he
      omega
  · rw [if_neg h]

theorem toLower_isWhitespace (c : Char) :
    (Char.toLower c).isWhitespace = c.isWhitespace := by
  have h1 : (Char.toLower c = ' ') ↔ (c = ' ') :=
    toLower_eq_low_iff c ' ' (by decide)
  have h2 : (Char.toLower c = '\t') ↔ (c = '\t') :=
    toLower_eq_low_iff c '\t' (by decide)
  have h3 : (Char.toLower c = '\x0d') ↔ (c = '\x0d') :=
    toLower_eq_low_iff c '\x0d' (by decide)
  have h4 : (Char.toLower c = '\n') ↔ (c = '\n') :=
    toLower_eq_low_iff c '\n' (by decide)
  unfold Char.isWhitespace
  rw [decide_eq_decide.mpr h1, decide_eq_decide.mpr h2,
    decide_eq_decide.mpr h3, decide_eq_decide.mpr h4]

/-! ### Generic takeWhile / dropWhile lemmas -/

theorem takeWhile_append_all {α : Type} {p : α → Bool} {l₁ l₂ : List α}
    (h : ∀ a ∈ l₁, p a = true) :
    (l₁ ++ l₂).takeWhile p = l₁ ++ l₂.takeWhile p := by
  induction l₁ with
  | nil => simp
  | cons x xs ih =>
    simp only [List.cons_append, List.takeWhile_cons, h x (by simp)]
    simp only [if_true]
    rw [ih fun a ha => h a (by simp [ha])]

theorem dropWhile_append_all {α : Type} {p : α → Bool} {l₁ l₂ : List α}
    (h : ∀ a ∈ l₁, p a = true) :
    (l₁ ++ l₂).dropWhile p = l₂.dropWhile p := by
  induction l₁ with
  | nil => simp
  | cons x xs ih =>
    simp only [List.cons_append, List.dropWhile_cons, h x (by simp)]
    simp only [if_true]
    exact ih fun a ha => h a (by simp [ha])

theorem takeWhile_append_stop {α : Type} {p : α → Bool} {l₁ l₂ : List α}
    (h : l₁.takeWhile p ≠ l₁) :
    (l₁ ++ l₂).takeWhile p = l₁.takeWhile p := by
  induction l₁ with
  | nil => simp at h
  | cons x xs ih =>
    by_cases hx : p x = true
    · rw [List.takeWhile_cons, if_pos hx] at h
      have hxs : xs.takeWhile p ≠ xs := fun he => h (by rw [he])
      rw [List.cons_append, List.takeWhile_cons, if_pos hx,
        List.takeWhile_cons, if_pos hx, ih hxs]
    · rw [List.cons_append, List.takeWhile_cons, if_neg hx,
        List.takeWhile_cons, if_neg hx]

theorem dropWhile_append_ne {α : Type} {p : α → Bool} {l₁ l₂ : List α}
    (h : l₁.dropWhile p ≠ []) :
    (l₁ ++ l₂).dropWhile p = l₁.dropWhile p ++ l₂ := by
  induction l₁ with
  | nil => simp at h
  | cons x xs ih =>
    by_cases hx : p x = true
    · rw [List.dropWhile_cons, if_pos hx] at h
      rw [List.cons_append, List.dropWhile_cons, if_pos hx,
        List.dropWhile_cons, if_pos hx, ih h]
    · rw [List.cons_append, List.dropWhile_cons, if_neg hx,
        List.dropWhile_cons, if_neg hx, List.cons_append]

theorem head_dropWhile_false {α : Type} {p : α → Bool} {l : List α}
    {c : α} {t : List α} (h : l.dropWhile p = c :: t) : p c = false := by
  induction l with
  | nil => simp at h
  | cons x xs ih =>
    by_cases hx : p x = true
    · rw [List.dropWhile_cons, if_pos hx] at h
      exact ih h
    · rw [List.dropWhile_cons, if_neg hx] at h
      cases h
      cases hpx : p c with
      | false => rfl
      | true => exact absurd hpx hx

/-! ### Facts about `pyStrip` / `stripEnd` -/

theorem stripEnd_append_all {p : Char → Bool} {l₁ l₂ : List Char}
    (h : ∀ a ∈ l₂, p a = true) :
    stripEnd p (l₁ ++ l₂) = stripEnd p l₁ := by
  unfold stripEnd
  rw [List.reverse_append,
    dropWhile_append_all (fun a ha => h a (List.mem_reverse.mp ha))]

theorem pyStrip_append_all {l₁ l₂ : List Char}
    (h : ∀ a ∈ l₂, Char.isWhitespace a = true) :
    pyStrip (l₁ ++ l₂) = pyStrip l₁ := by
  unfold pyStrip
  cases hD : l₁.dropWhile Char.isWhitespace with
  | nil =>
    have h₁ : ∀ a ∈ l₁, Char.isWhitespace a = true :=
      List.dropWhile_eq_nil_iff.mp hD
    rw [dropWhile_append_all h₁, List.dropWhile_eq_nil_iff.mpr h]
  | cons c t =>
    rw [dropWhile_append_ne (by rw [hD]; exact List.cons_ne_nil c t), hD,
      ← hD, stripEnd_append_all h]

theorem pyStrip_lead_all {l₁ l₂ : List Char}
    (h : ∀ a ∈ l₁, Char.isWhitespace a = true) :
    pyStrip (l₁ ++ l₂) = pyStrip l₂ := by
  unfold pyStrip
  rw [dropWhile_append_all h]

theorem stripEnd_decomp (p : Char → Bool) (v : List Char) :
    ∃ suf, v = stripEnd p v ++ suf ∧ ∀ a ∈ suf, p a = true := by
  refine ⟨(v.reverse.takeWhile p).reverse, ?_, ?_⟩
  · conv_lhs => rw [← List.reverse_reverse v,
      ← List.takeWhile_append_dropWhile p v.reverse]
    rw [List.reverse_append]
    rfl
  · intro a ha
    exact List.mem_takeWhile_imp (List.mem_reverse.mp ha)

theorem pyStrip_head_not_ws {s : List Char} {c : Char} {t : List Char}
    (h : pyStrip s = c :: t) : c.isWhitespace = false := by
  have hpre : pyStrip s <+: s.dropWhile Char.isWhitespace := by
    unfold pyStrip stripEnd
    refine List.reverse_suffix.mp ?_
    rw [List.reverse_reverse]
    exact List.dropWhile_suffix _
  obtain ⟨u, hu⟩ := hpre
  rw [h, List.cons_append] at hu
  exact head_dropWhile_false hu.symm

/-- Key lemma: for a predicate true on all whitespace, stripping the end
before truncating does not change the final stripped truncation. -/
theorem pyStrip_takeWhile_stripEnd {p : Char → Bool}
    (hp : ∀ c, Char.isWhitespace c = true → p c = true) (v : List Char) :
    pyStrip ((stripEnd Char.isWhitespace v).takeWhile p) =
      pyStrip (v.takeWhile p) := by
  obtain ⟨suf, hv, hsuf⟩ := stripEnd_decomp Char.isWhitespace v
  by_cases hstop :
      (stripEnd Char.isWhitespace v).takeWhile p = stripEnd Char.isWhitespace v
  · have hsufp : ∀ a ∈ suf, p a = true := fun a ha => hp a (hsuf a ha)
    have h1 : v.takeWhile p =
        stripEnd Char.isWhitespace v ++ suf.takeWhile p := by
      conv_lhs => rw [hv]
      rw [takeWhile_append_all (List.takeWhile_eq_self_iff.mp hstop)]
    have h2 : suf.takeWhile p = suf := List.takeWhile_eq_self_iff.mpr hsufp
    rw [hstop, h1, h2, pyStrip_append_all hsuf]
  · conv_rhs => rw [hv]
    rw [takeWhile_append_stop hstop]

/-- Key lemma: for a predicate true on all whitespace, stripping both ends
before truncating does not change the final stripped truncation. -/
theorem pyStrip_takeWhile_pyStrip {p : Char → Bool}
    (hp : ∀ c, Char.isWhitespace c = true → p c = true) (s : List Char) :
    pyStrip ((pyStrip s).takeWhile p) = pyStrip (s.takeWhile p) := by
  have hws : ∀ a ∈ s.takeWhile Char.isWhitespace, Char.isWhitespace a = true :=
    fun a ha => List.mem_takeWhile_imp ha
  have hRHS : pyStrip (s.takeWhile p) =
      pyStrip ((s.dropWhile Char.isWhitespace).takeWhile p) := by
    conv_lhs => rw [← List.takeWhile_append_dropWhile Char.isWhitespace s,
      takeWhile_append_all (fun a ha => hp a (hws a ha))]
    exact pyStrip_lead_all hws
  rw [hRHS]
  exact pyStrip_takeWhile_stripEnd hp (s.dropWhile Char.isWhitespace)

/-! ### `pyLower` commutes with the stripping and truncation operations -/

theorem toLower_beq_low (c d : Char) (hd : d.toNat < 65) :
    (Char.toLower c == d) = (c == d) := by
  rw [Bool.eq_iff_iff]
  simp only [beq_iff_eq]
  exact toLower_eq_low_iff c d hd

theorem toLower_bne_low (c d : Char) (hd : d.toNat < 65) :
    (Char.toLower c != d) = (c != d) := by
  simp only [bne, toLower_beq_low c d hd]

theorem pyLower_dropWhile_ws (s : List Char) :
    (pyLower s).dropWhile Char.isWhitespace =
      pyLower (s.dropWhile Char.isWhitespace) := by
  unfold pyLower
  rw [List.dropWhile_map]
  have hpred : (Char.isWhitespace ∘ Char.toLower) = Char.isWhitespace :=
    funext toLower_isWhitespace
  rw [hpred]

theorem pyLower_reverse (s : List Char) :
    (pyLower s).reverse = pyLower s.reverse := by
  unfold pyLower
  exact (List.map_reverse Char.toLower s).symm

theorem pyLower_stripEnd_ws (s : List Char) :
    stripEnd Char.isWhitespace (pyLower s) =
      pyLower (stripEnd Char.isWhitespace s) := by
  unfold stripEnd
  rw [pyLower_reverse, show (pyLower s.reverse).dropWhile Char.isWhitespace =
    pyLower (s.reverse.dropWhile Char.isWhitespace) from pyLower_dropWhile_ws _,
    pyLower_reverse]

theorem pyLower_pyStrip (s : List Char) :
    pyStrip (pyLower s) = pyLower (pyStrip s) := by
  unfold pyStrip
  rw [pyLower_dropWhile_ws, pyLower_stripEnd_ws]

theorem pyLower_takeWhile_ne (d : Char) (hd : d.toNat < 65) (s : List Char) :
    (pyLower s).takeWhile (fun c => c != d) =
      pyLower (s.takeWhile (fun c => c != d)) := by
  unfold pyLower
  rw [List.takeWhile_map]
  have hpred : ((fun c => c != d) ∘ Char.toLower) = (fun c => c != d) :=
    funext fun c => toLower_bne_low c d hd
  rw [hpred]

/-! ### Head and non-emptiness facts about the split primitives -/

theorem split1_ne_nil (sep : Char) (s : List Char) : split1 sep s ≠ [] := by
  cases s with
  | nil => exact List.cons_ne_nil _ _
  | cons c rest =>
    unfold split1
    by_cases hc : (c == sep) = true
    · rw [if_pos hc]
      exact List.cons_ne_nil _ _
    · rw [if_neg hc]
      cases split1 sep rest with
      | nil => exact List.cons_ne_nil _ _
      | cons g gs => exact List.cons_ne_nil _ _

theorem split2_ne_nil (a b : Char) (s : List Char) : split2 a b s ≠ [] := by
  cases s with
  | nil => exact List.cons_ne_nil _ _
  | cons c rest =>
    cases rest with
    | nil => exact List.cons_ne_nil _ _
    | cons d rest' =>
      unfold split2
      by_cases hc : (c == a && d == b) = true
      · rw [if_pos hc]
        exact List.cons_ne_nil _ _
      · rw [if_neg hc]
        cases split2 a b (d :: rest') with
        | nil => exact List.cons_ne_nil _ _
        | cons g gs => exact List.cons_ne_nil _ _

/-- `l.split(c)[0]` is exactly the prefix of `l` before the first `c`. -/
theorem split1_head (sep : Char) (s : List Char) :
    pyGetItem (split1 sep s) 0 =
      Except.ok (s.takeWhile (fun c => c != sep)) := by
  induction s with
  | nil => rfl
  | cons c rest ih =>
    unfold split1
    by_cases hc : (c == sep) = true
    · rw [if_pos hc]
      have hbne : (c != sep) = false := by simp [bne, hc]
      rw [List.takeWhile_cons, hbne]
      rfl
    · rw [if_neg hc]
      have hbne : (c != sep) = true := by
        simp only [bne]
        cases hcc : (c == sep) with
        | false => rfl
        | true => exact absurd hcc hc
      rw [List.takeWhile_cons, hbne, if_pos rfl]
      cases hsp : split1 sep rest with
      | nil => exact absurd hsp (split1_ne_nil sep rest)
      | cons g gs =>
        rw [hsp] at ih
        have hg : g = rest.takeWhile (fun c => c != sep) := by
          simpa [pyGetItem] using ih
        simp [pyGetItem, hg]

theorem splitWsTok_acc_ne_nil (s : List Char) :
    ∀ acc : List Char, acc ≠ [] → splitWsTok s acc ≠ [] := by
  induction s with
  | nil =>
    intro acc hacc
    unfold splitWsTok
    rw [if_neg (by simpa [List.isEmpty_iff] using hacc)]
    exact List.cons_ne_nil _ _
  | cons c rest ih =>
    intro acc hacc
    unfold splitWsTok
    by_cases hc : c.isWhitespace = true
    · rw [if_pos hc, if_neg (by simpa [List.isEmpty_iff] using hacc)]
      exact List.cons_ne_nil _ _
    · rw [if_neg hc]
      exact ih (c :: acc) (List.cons_ne_nil _ _)

theorem pySplitWs_ne_nil {c : Char} {t : List Char}
    (hc : c.isWhitespace = false) : pySplitWs (c :: t) ≠ [] := by
  unfold pySplitWs splitWsTok
  rw [if_neg (by simp [hc])]
  exact splitWsTok_acc_ne_nil t [c] (List.cons_ne_nil _ _)

/-! ### `pyContains` is substring containment -/

theorem pyContains_iff (hay needle : List Char) :
    pyContains hay needle = true ↔ needle <:+: hay := by
  unfold pyContains
  rw [List.any_eq_true]
  constructor
  · rintro ⟨t, ht, hpre⟩
    rw [List.mem_tails] at ht
    exact List.infix_iff_prefix_suffix.mpr
      ⟨t, List.isPrefixOf_iff_prefix.mp hpre, ht⟩
  · intro h
    obtain ⟨t, hp, hs⟩ := List.infix_iff_prefix_suffix.mp h
    exact ⟨t, (List.mem_tails _ _).mpr hs, List.isPrefixOf_iff_prefix.mpr hp⟩

/-! ### Characterisation of the per-object computation -/

/-- The label as the code computes it: lowercase the stripped fragment,
take the prefix before the first comma, strip, take the prefix before the
first open parenthesis, strip. -/
def labelOf (obj : List Char) : List Char :=
  pyStrip ((pyStrip ((pyLower (pyStrip obj)).takeWhile
    (fun c => c != ','))).takeWhile (fun c => c != '('))

/-- The confidence as the code computes it. -/
def confidenceOf (obj : List Char) : ℚ :=
  if pyContains (pyLower (pyStrip obj)) ("high confidence".toList) then
    mkRat 9 10
  else mkRat 7 10

/-- The per-object block never raises, and each of its fields is as the
code's straight-line computation describes. -/
theorem parseItemE_eq (obj : List Char) :
    parseItemE obj = Except.ok
      { label := labelOf obj, confidence := confidenceOf obj,
        bbox := findBbox location_terms (pyLower (pyStrip obj)) } := by
  simp only [parseItemE, split1_head, labelOf, confidenceOf]

theorem ws_bne (d : Char) (hd : d.isWhitespace = false) :
    ∀ c : Char, c.isWhitespace = true → (c != d) = true := by
  intro c hc
  cases hbc : (c != d) with
  | true => rfl
  | false =>
    have hcd : c = d := by simpa [bne] using hbc
    rw [hcd, hd] at hc
    exact Bool.noConfusion hc

theorem takeWhile_takeWhile_bne (d e : Char) (l : List Char) :
    (l.takeWhile (fun c => c != d)).takeWhile (fun c => c != e) =
      l.takeWhile (fun c => c != d && c != e) := by
  induction l with
  | nil => rfl
  | cons x xs ih =>
    by_cases hx : (x != d) = true
    · by_cases hy : (x != e) = true
      · rw [List.takeWhile_cons, if_pos hx, List.takeWhile_cons, if_pos hy,
          List.takeWhile_cons, if_pos (by simp [hx, hy]), ih]
      · rw [List.takeWhile_cons, if_pos hx, List.takeWhile_cons, if_neg hy,
          List.takeWhile_cons, if_neg (by simp [Bool.eq_false_iff.mpr hy])]
    · rw [List.takeWhile_cons, if_neg hx, List.takeWhile_cons,
        if_neg (by simp [Bool.eq_false_iff.mpr hx])]
      rfl

/-- The label equals the specification formula: the item text lowercased,
truncated at the first comma, then truncated at the first open
parenthesis, and trimmed of surrounding whitespace — the intermediate
strips performed by the code do not change the result. -/
theorem labelOf_eq_spec (obj : List Char) :
    labelOf obj =
      pyStrip (((pyLower obj).takeWhile (fun c => c != ',')).takeWhile
        (fun c => c != '(')) := by
  have hp := ws_bne ',' (by decide)
  have hq := ws_bne '(' (by decide)
  have hr : ∀ c : Char, c.isWhitespace = true → (c != ',' && c != '(') = true := by
    intro c hc
    simp [hp c hc, hq c hc]
  unfold labelOf
  rw [pyStrip_takeWhile_pyStrip hq, takeWhile_takeWhile_bne ',' '(',
    ← pyLower_pyStrip, pyStrip_takeWhile_pyStrip hr]
  rw [takeWhile_takeWhile_bne ',' '(']

/-! ### Facts about the location lookup -/

theorem findBbox_mem (info : List Char) :
    findBbox location_terms info ∈ location_terms.map Prod.snd := by
  simp only [location_terms, findBbox]
  split_ifs <;> decide

/-- `findBbox` returns the coordinates of the FIRST location phrase (in
the dict's document order) occurring in the item text, and the default
center box when none occurs. -/
theorem findBbox_eq_first_match (info : List Char) :
    findBbox location_terms info =
      (match location_terms.find? (fun t => pyContains info t.1) with
       | some t => t.2
       | none => defaultBbox) := by
  simp only [location_terms, findBbox, List.find?_cons]
  split_ifs with h1 h2 h3 h4 h5 h6 h7 <;>
    simp_all <;> rfl

theorem findBbox_ne_bottomCenter (info : List Char)
    (h : pyContains info ("bottom-center".toList) = true) :
    findBbox location_terms info ≠
      [mkRat 3 10, mkRat 6 10, mkRat 7 10, mkRat 9 10] := by
  have hc : pyContains info ("center".toList) = true := by
    rw [pyContains_iff] at h ⊢
    exact List.IsInfix.trans
      ((pyContains_iff "bottom-center".toList "center".toList).mp (by decide)) h
  simp only [location_terms, findBbox]
  split_ifs with h1 h2 h3 h4 <;> first
    | decide
    | (exact absurd hc (by assumption))

/-! ### Soundness of the parsing pipeline -/

theorem processObjects_sound {P : Annotation → Prop}
    (hP : ∀ obj a, parseItemE obj = Except.ok a → P a) :
    ∀ (objs : List (List Char)) (acc : List Annotation),
      (∀ a ∈ acc, P a) → ∀ a ∈ (processObjects objs acc).1, P a := by
  intro objs
  induction objs with
  | nil => intro acc hacc a ha; exact hacc a ha
  | cons obj rest ih =>
    intro acc hacc a ha
    unfold processObjects at ha
    by_cases hs : (pyStrip obj).isEmpty = true
    · rw [if_pos hs] at ha
      exact ih acc hacc a ha
    · rw [if_neg hs] at ha
      cases hpe : parseItemE obj with
      | ok b =>
        rw [hpe] at ha
        refine ih (acc ++ [b]) ?_ a ha
        intro x hx
        rcases List.mem_append.mp hx with hx' | hx'
        · exact hacc x hx'
        · exact (List.mem_singleton.mp hx') ▸ hP obj b hpe
      | error e =>
        rw [hpe] at ha
        exact hacc a ha

theorem processSection_sound {P : Annotation → Prop}
    (hP : ∀ obj a, parseItemE obj = Except.ok a → P a)
    (st : List Annotation × List (List Char × List Char)) (sec : List Char)
    (hst : ∀ a ∈ st.1, P a) :
    ∀ a ∈ (processSection st sec).1.1, P a := by
  unfold processSection
  split_ifs with h1 h2 h3 h4 h5 h6
  · exact processObjects_sound hP _ st.1 hst
  all_goals exact hst

theorem parseLoop_sound {P : Annotation → Prop}
    (hP : ∀ obj a, parseItemE obj = Except.ok a → P a) :
    ∀ (secs : List (List Char))
      (st : List Annotation × List (List Char × List Char)),
      (∀ a ∈ st.1, P a) → ∀ a ∈ (parseLoop secs st).1.1, P a := by
  intro secs
  induction secs with
  | nil => intro st hst a ha; exact hst a ha
  | cons sec rest ih =>
    intro st hst a ha
    unfold parseLoop at ha
    rcases hps : processSection st sec with ⟨st', err⟩
    rw [hps] at ha
    have hst' : ∀ b ∈ st'.1, P b := by
      have hsec := processSection_sound hP st sec hst
      rw [hps] at hsec
      exact hsec
    cases err with
    | none => exact ih st' hst' a ha
    | some e => exact hst' a ha

/-- Every annotation in the parser's output satisfies any property that
holds of every successfully parsed item. -/
theorem parse_sound {P : Annotation → Prop}
    (hP : ∀ obj a, parseItemE obj = Except.ok a → P a) :
    ∀ (s : List Char) (a : Annotation),
      a ∈ (parse_claude_response s).1 → P a := by
  intro s a ha
  unfold parse_claude_response at ha
  exact parseLoop_sound hP _ ([], [])
    (fun x hx => absurd hx (List.not_mem_nil x)) a ha

/-! ### The parser never raises internally -/

theorem processObjects_err (objs : List (List Char)) :
    ∀ acc : List Annotation, (processObjects objs acc).2 = none := by
  induction objs with
  | nil => intro acc; rfl
  | cons obj rest ih =>
    intro acc
    unfold processObjects
    by_cases hs : (pyStrip obj).isEmpty = true
    · rw [if_pos hs]
      exact ih acc
    · rw [if_neg hs, parseItemE_eq obj]
      exact ih _

theorem processSection_err
    (st : List Annotation × List (List Char × List Char)) (sec : List Char) :
    (processSection st sec).2 = none := by
  unfold processSection
  split_ifs with h1 h2 h3 h4 h5 h6
  · exact processObjects_err _ st.1
  all_goals rfl

theorem parseLoop_err (secs : List (List Char)) :
    ∀ st : List Annotation × List (List Char × List Char),
      (parseLoop secs st).2 = none := by
  induction secs with
  | nil => intro st; rfl
  | cons sec rest ih =>
    intro st
    unfold parseLoop
    rcases hps : processSection st sec with ⟨st', err⟩
    have herr : err = none := by
      have h := processSection_err st sec
      rw [hps] at h
      exact h
    rw [herr]
    exact ih st'

/-! ### Characterisation of the domain classifier -/

theorem dictGet_eq_default (k dflt : List Char)
    (m : List (List Char × List Char)) (h : ∀ kv ∈ m, kv.1 ≠ k) :
    dictGet k dflt m = dflt := by
  induction m with
  | nil => rfl
  | cons kv rest ih =>
    rcases kv with ⟨k', v⟩
    unfold dictGet
    rw [if_neg (h (k', v) (by simp))]
    exact ih fun x hx => h x (by simp [hx])

/-- The post-processing inside `detect_domain` never raises and computes
exactly: normalize the first token, validate, fall back to the synonym
table with default `'undersea'`. -/
theorem detect_domain_post_eq (reply : List Char) :
    detect_domain_post reply = Except.ok
      (if normalizeFirstToken reply ∈ valid_domains then
        normalizeFirstToken reply
       else dictGet (normalizeFirstToken reply) ("undersea".toList)
         domain_mapping) := by
  simp only [detect_domain_post, normalizeFirstToken]
  by_cases h0 : (pyLower (pyStrip reply)).isEmpty = true
  · rw [if_pos h0, if_pos h0]
    rfl
  · rw [if_neg h0, if_neg h0]
    cases hps : pyStrip reply with
    | nil =>
      exfalso
      apply h0
      rw [hps]
      rfl
    | cons c t =>
      have hcws : c.isWhitespace = false := pyStrip_head_not_ws hps
      have hlws : (Char.toLower c).isWhitespace = false := by
        rw [toLower_isWhitespace]
        exact hcws
      have hcons : pyLower (c :: t) = Char.toLower c :: pyLower t := rfl
      rw [hcons]
      cases hsw : pySplitWs (Char.toLower c :: pyLower t) with
      | nil => exact absurd hsw (pySplitWs_ne_nil hlws)
      | cons g gs =>
        simp only [pyGetItem, List.get?, List.headD_cons]
        split_ifs <;> rfl

theorem findBbox_default (info : List Char)
    (h : ∀ t ∈ location_terms, pyContains info t.1 = false) :
    findBbox location_terms info = defaultBbox := by
  rw [findBbox_eq_first_match,
    List.find?_eq_none.mpr fun x hx => by rw [h x hx]; exact Bool.false_ne_true]

/-! ## Claims -/

/-- C1 (counterexample): the claim says the parser draws bboxes from a set
of exactly NINE hardcoded rectangles; in fact the parser hardcodes exactly
SEVEN distinct rectangles (the seven values of `location_terms`; the
default centre box is one of them), not nine. -/
theorem claim_C1_counterexample :
    (location_terms.map Prod.snd).dedup.length = 7 ∧
    (location_terms.map Prod.snd).dedup.length ≠ 9 ∧
    defaultBbox ∈ location_terms.map Prod.snd := by
  decide

/-- C1 (amended): every annotation produced by `parse_claude_response` has
a bbox drawn from the fixed set of exactly SEVEN hardcoded rectangles (six
directional boxes plus the centre box, which also serves as the default);
the parser never computes a bbox outside this set. -/
theorem claim_C1 :
    (∀ (s : List Char) (a : Annotation), a ∈ (parse_claude_response s).1 →
      a.bbox ∈ location_terms.map Prod.snd) ∧
    (location_terms.map Prod.snd).dedup.length = 7 := by
  constructor
  · refine parse_sound ?_
    intro obj a h
    rw [parseItemE_eq] at h
    injection h with h2
    rw [← h2]
    exact findBbox_mem _
  · decide

/-- C1 (witness): a concrete response yields an annotation, and the
theorem places its bbox in the seven-element hardcoded set. -/
theorem claim_C1_witness :
    ( Annotation.mk "coral reef".toList (mkRat 7 10)
        [mkRat 6 10, mkRat 1 10, mkRat 9 10, mkRat 4 10]).bbox ∈
      location_terms.map Prod.snd :=
  claim_C1.1 ("1. OBJECT IDENTIFICATION\n- coral reef, top-right corner".toList)
    _ (by decide)

/-- C2 (counterexample): the claim speaks of NINE location phrases (the
table has seven), and asserts that an item containing a phrase gets that
phrase's rectangle; an item containing "bottom-center" instead gets the
CENTER rectangle `[0.3, 0.3, 0.7, 0.7]`, because "center" is a substring
of "bottom-center" and is checked earlier. -/
theorem claim_C2_counterexample :
    location_terms.length = 7 ∧ location_terms.length ≠ 9 ∧
    (parse_claude_response
        ("1. OBJECT IDENTIFICATION\n- torpedo casing, near the bottom-center".toList)).1.map
      Annotation.bbox = [defaultBbox] ∧
    defaultBbox ≠ [mkRat 3 10, mkRat 6 10, mkRat 7 10, mkRat 9 10] := by
  decide

/-- C2 (amended): the location check proceeds in the dict's document order
— top-center, top-left, top-right, center, bottom-left, bottom-right,
bottom-center — over the SEVEN phrases, first substring match winning,
with default `[0.3, 0.3, 0.7, 0.7]`; consequently the bottom-center
rectangle is never assigned (any text containing "bottom-center" also
contains "center", matched earlier), and an item containing none of the
phrases gets the centre rectangle. -/
theorem claim_C2 :
    (∀ info : List Char, findBbox location_terms info =
      (match location_terms.find? (fun t => pyContains info t.1) with
       | some t => t.2
       | none => defaultBbox)) ∧
    (∀ info : List Char, pyContains info ("bottom-center".toList) = true →
      findBbox location_terms info ≠
        [mkRat 3 10, mkRat 6 10, mkRat 7 10, mkRat 9 10]) ∧
    (∀ info : List Char, (∀ t ∈ location_terms, pyContains info t.1 = false) →
      findBbox location_terms info = defaultBbox) :=
  ⟨findBbox_eq_first_match, findBbox_ne_bottomCenter, findBbox_default⟩

/-- C2 (witness): concrete items discharging the hypotheses of the
amended claim: a "bottom-center" item does not get the bottom-center
rectangle, and an item with no location phrase gets the default. -/
theorem claim_C2_witness :
    (findBbox location_terms ("mine anchored at the bottom-center".toList) ≠
      [mkRat 3 10, mkRat 6 10, mkRat 7 10, mkRat 9 10]) ∧
    findBbox location_terms ("unidentified debris".toList) = defaultBbox :=
  ⟨claim_C2.2.1 _ (by decide), claim_C2.2.2 _ (by decide)⟩

/-- C4: the parser assigns confidence 0.9 exactly when the item text
contains the literal phrase "high confidence" and 0.7 otherwise, and no
other confidence value ever reaches the output. -/
theorem claim_C4 :
    (∀ (obj : List Char) (a : Annotation), parseItemE obj = Except.ok a →
      a.confidence =
        (if pyContains (pyLower (pyStrip obj)) ("high confidence".toList) then
          mkRat 9 10
         else mkRat 7 10)) ∧
    (∀ (s : List Char) (a : Annotation), a ∈ (parse_claude_response s).1 →
      a.confidence = mkRat 9 10 ∨ a.confidence = mkRat 7 10) := by
  constructor
  · intro obj a h
    rw [parseItemE_eq] at h
    injection h with h2
    rw [← h2]
    rfl
  · refine parse_sound ?_
    intro obj a h
    rw [parseItemE_eq] at h
    injection h with h2
    rw [← h2]
    show confidenceOf obj = mkRat 9 10 ∨ confidenceOf obj = mkRat 7 10
    unfold confidenceOf
    split_ifs with hc
    · exact Or.inl rfl
    · exact Or.inr rfl

/-- C4 (witness): a "high confidence" item gets 0.9; an ordinary item in
a full parsed response gets one of the two confidences. -/
theorem claim_C4_witness :
    (( Annotation.mk "jellyfish swarm".toList (mkRat 9 10) defaultBbox).confidence =
      (if pyContains (pyLower (pyStrip (" jellyfish swarm, high confidence".toList)))
          ("high confidence".toList) then mkRat 9 10 else mkRat 7 10)) ∧
    (( Annotation.mk "kelp".toList (mkRat 7 10) defaultBbox).confidence = mkRat 9 10 ∨
      ( Annotation.mk "kelp".toList (mkRat 7 10) defaultBbox).confidence = mkRat 7 10) :=
  ⟨claim_C4.1 (" jellyfish swarm, high confidence".toList) _ (by rfl),
   claim_C4.2 ("1. OBJECT IDENTIFICATION\n- kelp".toList) _ (by decide)⟩

/-- C5: the annotation's label is the item text lowercased, truncated at
the first comma, then truncated at the first open parenthesis, and
trimmed of surrounding whitespace; in particular the item
"Foo Bar, extra text (parenthetical)" parses to label "foo bar". -/
theorem claim_C5 :
    (∀ (obj : List Char) (a : Annotation), parseItemE obj = Except.ok a →
      a.label = pyStrip (((pyLower obj).takeWhile (fun c => c != ',')).takeWhile
        (fun c => c != '('))) ∧
    (parse_claude_response
        ("1. OBJECT IDENTIFICATION\n- Foo Bar, extra text (parenthetical)".toList)).1.map
      Annotation.label = ["foo bar".toList] := by
  constructor
  · intro obj a h
    rw [parseItemE_eq] at h
    injection h with h2
    rw [← h2]
    exact labelOf_eq_spec obj
  · decide

/-- C5 (witness): the label rule applied to a concrete item. -/
theorem claim_C5_witness :
    ( Annotation.mk "sea mine".toList (mkRat 9 10) defaultBbox).label =
      pyStrip (((pyLower (" Sea Mine (metallic object), high confidence".toList)).takeWhile
        (fun c => c != ',')).takeWhile (fun c => c != '(')) :=
  claim_C5.1 (" Sea Mine (metallic object), high confidence".toList) _ (by rfl)

/-- C7: `parse_claude_response` never raises — every fallible operation in
its body succeeds on every input (the loop's error component is always
`none`), and the function returns exactly the accumulated state. -/
theorem claim_C7 :
    ∀ s : List Char,
      (parseLoop (split2 '\n' '\n' s) ([], [])).2 = none ∧
      parse_claude_response s = (parseLoop (split2 '\n' '\n' s) ([], [])).1 :=
  fun s => ⟨parseLoop_err _ _, rfl⟩

/-- Modelled from the claim's wording for comparison with the code: strip
the punctuation characters from the TRAILING end only. -/
def specStripTrailing (cs : List Char) (s : List Char) : List Char :=
  stripEnd (fun c => cs.contains c) s

/-- C3 (counterexample): the code strips the punctuation set `.:!?` from
BOTH ends (`str.strip`), not only the trailing end.  The reply
".healthcare" has first token ".healthcare", which under the claim's
trailing-only stripping stays ".healthcare" — recognized by neither the
canonical labels nor the synonym table, so the claim requires the result
"undersea"; the code returns "healthcare". -/
theorem claim_C3_counterexample :
    specStripTrailing (".:!?".toList) (".healthcare".toList) =
      ".healthcare".toList ∧
    ".healthcare".toList ∉ valid_domains ∧
    (∀ kv ∈ domain_mapping, kv.1 ≠ ".healthcare".toList) ∧
    detect_domain (Except.ok (".healthcare".toList)) = "healthcare".toList ∧
    "healthcare".toList ≠ "undersea".toList := by
  decide

/-- C3 (amended): with the punctuation set `.:!?` stripped from BOTH ends
of the lowercased first token: each canonical label maps to itself (also
under case variation and trailing punctuation), each synonym-table entry
maps to its target, and any unrecognized token yields "undersea". -/
theorem claim_C3 :
    (∀ d ∈ DOMAINS, detect_domain (Except.ok d) = d ∧
      detect_domain (Except.ok (d.map Char.toUpper)) = d ∧
      ∀ p ∈ ".:!?".toList, detect_domain (Except.ok (d ++ [p])) = d) ∧
    (∀ kv ∈ domain_mapping, detect_domain (Except.ok kv.1) = kv.2) ∧
    (∀ reply : List Char, normalizeFirstToken reply ∉ valid_domains →
      (∀ kv ∈ domain_mapping, kv.1 ≠ normalizeFirstToken reply) →
      detect_domain (Except.ok reply) = "undersea".toList) := by
  refine ⟨by decide, by decide, ?_⟩
  intro reply h1 h2
  show (match detect_domain_post reply with
    | Except.ok d => d
    | Except.error _ => "undersea".toList) = "undersea".toList
  rw [detect_domain_post_eq reply]
  show (if normalizeFirstToken reply ∈ valid_domains then
      normalizeFirstToken reply
    else dictGet (normalizeFirstToken reply) ("undersea".toList)
      domain_mapping) = "undersea".toList
  rw [if_neg h1]
  exact dictGet_eq_default _ _ _ h2

/-- C3 (witness): concrete replies discharging each hypothesis of the
amended claim: a canonical label, a synonym, and an unrecognized token. -/
theorem claim_C3_witness :
    detect_domain (Except.ok ("healthcare".toList)) = "healthcare".toList ∧
    detect_domain (Except.ok ("marine".toList)) = "undersea".toList ∧
    detect_domain (Except.ok ("spaceship".toList)) = "undersea".toList :=
  ⟨(claim_C3.1 ("healthcare".toList) (by decide)).1,
   claim_C3.2.1 ("marine".toList, "undersea".toList) (by decide),
   claim_C3.2.2 ("spaceship".toList) (by decide) (by decide)⟩

/-- C6: domain classification never propagates an error — a transport or
model exception is caught and the default "undersea" is returned, and the
post-processing of a successful reply itself never raises (its one
fallible operation, the `[0]` subscript, is guarded by the truthiness
test). -/
theorem claim_C6 :
    (∀ e : List Char, detect_domain (Except.error e) = "undersea".toList) ∧
    (∀ reply : List Char, isOkE (detect_domain_post reply) = true) := by
  constructor
  · intro e
    rfl
  · intro reply
    rw [detect_domain_post_eq reply]
    rfl

/-- C8: if any exception occurs inside `annotate_image` (opening or
saving the image, or a malformed bbox subscript while drawing), the
function returns the ORIGINAL input image path unchanged. -/
theorem claim_C8 :
    ∀ (env : AnnotateEnv) (image_path : List Char)
      (annotations : List Annotation) (e : List Char),
      annotate_imageE env image_path annotations = Except.error e →
      annotate_image env image_path annotations = image_path := by
  intro env ip anns e h
  unfold annotate_image
  rw [h]

/-- C8 (witness): a failing `Image.open` and a malformed bbox both make
`annotate_image` return the original path. -/
theorem claim_C8_witness :
    annotate_image
        ⟨Except.error ("FileNotFoundError".toList), Except.ok (),
          "20240101_000001".toList⟩
        ("temp/temp_x.jpg".toList) [] = "temp/temp_x.jpg".toList ∧
    annotate_image
        ⟨Except.ok ⟨640, 480⟩, Except.ok (), "20240101_000002".toList⟩
        ("temp/temp_y.jpg".toList)
        [ Annotation.mk ("wreck".toList) (mkRat 1 2) []] =
      "temp/temp_y.jpg".toList :=
  ⟨claim_C8 _ _ _ _ (by rfl), claim_C8 _ _ _ _ (by rfl)⟩

/-- C10 (counterexample): a call of `generate_pdf_report` with
`annotated_path = None` does NOT always raise: when the original image
path does not exist on disk, the `and` short-circuits, the `None` never
reaches `os.path.exists`, and a report without the image row is
produced. -/
theorem claim_C10_counterexample :
    generate_pdf_report ⟨fun _ => false, "20240101_000003".toList⟩
        ("raw analysis".toList) [] ("undersea".toList)
        ("temp/missing.jpg".toList) [] none =
      Except.ok
        (reportName ⟨fun _ => false, "20240101_000003".toList⟩
          ("undersea".toList), false) := by
  rfl

/-- C10 (amended): with `annotated_path = None`, `generate_pdf_report`
raises exactly when the original image path exists (the existence check
is then applied to `None`); when the original image does not exist the
short-circuit skips the check and a report without the side-by-side
images is produced; a report without images is likewise produced when
`annotated_path` names a file that does not exist. -/
theorem claim_C10 :
    ∀ (env : ReportEnv) (analysis_results : List Char)
      (analysis_sections : List (List Char × List Char))
      (domain image_path : List Char) (annotations : List Annotation),
      (env.existsFn image_path = true →
        isOkE (generate_pdf_report env analysis_results analysis_sections
          domain image_path annotations none) = false) ∧
      (env.existsFn image_path = false →
        generate_pdf_report env analysis_results analysis_sections
          domain image_path annotations none =
          Except.ok (reportName env domain, false)) ∧
      (∀ p : List Char, env.existsFn image_path = true →
        env.existsFn p = false →
        generate_pdf_report env analysis_results analysis_sections
          domain image_path annotations (some p) =
          Except.ok (reportName env domain, false)) := by
  intro env ar secs domain ip anns
  refine ⟨?_, ?_, ?_⟩
  · intro h
    simp only [generate_pdf_report]
    rw [if_pos h]
    rfl
  · intro h
    simp only [generate_pdf_report]
    rw [if_neg (by simp [h])]
  · intro p h1 h2
    simp only [generate_pdf_report]
    rw [if_pos h1, h2]

/-- C10 (witness): the three behaviours of the amended claim at concrete
on-disk states. -/
theorem claim_C10_witness :
    isOkE (generate_pdf_report ⟨fun _ => true, "TS1".toList⟩
        ("raw".toList) [] ("undersea".toList) ("temp/a.jpg".toList) []
        none) = false ∧
    generate_pdf_report ⟨fun _ => false, "TS2".toList⟩ ("raw".toList) []
        ("education".toList) ("temp/b.jpg".toList) [] none =
      Except.ok (reportName ⟨fun _ => false, "TS2".toList⟩
        ("education".toList), false) ∧
    generate_pdf_report
        ⟨fun q => decide (q = "temp/c.jpg".toList), "TS3".toList⟩
        ("raw".toList) [] ("psychology".toList) ("temp/c.jpg".toList) []
        (some ("temp/gone.jpg".toList)) =
      Except.ok (reportName
        ⟨fun q => decide (q = "temp/c.jpg".toList), "TS3".toList⟩
        ("psychology".toList), false) :=
  ⟨(claim_C10 _ _ _ _ _ _).1 rfl,
   (claim_C10 _ _ _ _ _ _).2.1 rfl,
   (claim_C10 _ _ _ _ _ _).2.2 _ (by decide) (by decide)⟩

/-! ### Helper facts for the orchestrator claim -/

theorem cleanupTrace_fst (env : AnalyzeEnv) (files : List (List Char)) :
    (cleanupTrace env files).map Prod.fst = files := by
  induction files with
  | nil => rfl
  | cons f fs ih =>
    unfold cleanupTrace at ih ⊢
    simp only [List.map_cons]
    rw [ih]

theorem annotate_imageE_ok_path {env : AnnotateEnv} {ip : List Char}
    {anns : List Annotation} {r : List Char × List DrawCmd}
    (h : annotate_imageE env ip anns = Except.ok r) :
    r.1 = "temp/annotated_".toList ++ env.ts ++ ".jpg".toList := by
  unfold annotate_imageE at h
  split at h
  · exact Except.noConfusion h
  · split at h
    · exact Except.noConfusion h
    · split at h
      · exact Except.noConfusion h
      · injection h with h2
        rw [← h2]

theorem annotated_ne_temp (t1 t2 : List Char) :
    "temp/annotated_".toList ++ t1 ++ ".jpg".toList ≠
      "temp/temp_".toList ++ t2 ++ ".jpg".toList := by
  intro h
  have h' : ('t' :: 'e' :: 'm' :: 'p' :: '/' :: 'a' ::
        ("nnotated_".toList ++ t1 ++ ".jpg".toList) : List Char) =
      't' :: 'e' :: 'm' :: 'p' :: '/' :: 't' ::
        ("emp_".toList ++ t2 ++ ".jpg".toList) := h
  simp only [List.cons.injEq] at h'
  exact absurd h'.2.2.2.2.2.1 (by decide)

theorem temp_not_prefix_report (domain ts : List Char) :
    ¬ ("temp/".toList <+:
      ("report_".toList ++ domain ++ "_".toList ++ ts ++ ".pdf".toList)) := by
  rintro ⟨u, hu⟩
  have h' : ('t' :: 'e' :: 'm' :: 'p' :: '/' :: u : List Char) =
      'r' :: 'e' :: 'p' :: 'o' :: 'r' :: 't' :: '_' ::
        (((domain ++ "_".toList) ++ ts) ++ ".pdf".toList) := hu
  simp only [List.cons.injEq] at h'
  exact absurd h'.1 (by decide)

theorem temp_prefix_tempImagePath (env : AnalyzeEnv) :
    "temp/".toList <+: tempImagePath env :=
  ⟨"temp_".toList ++ env.ts ++ ".jpg".toList, rfl⟩

theorem temp_prefix_annotate_image (env : AnnotateEnv) (ip : List Char)
    (anns : List Annotation) (hip : "temp/".toList <+: ip) :
    "temp/".toList <+: annotate_image env ip anns := by
  unfold annotate_image
  cases he : annotate_imageE env ip anns with
  | error e => exact hip
  | ok r =>
    show "temp/".toList <+: r.1
    rw [annotate_imageE_ok_path he]
    exact ⟨"annotated_".toList ++ env.ts ++ ".jpg".toList, rfl⟩

/-- C9: on every exit path of the `/analyze` handler, the cleanup loop
visits exactly the temp files created during the request — the uploaded
temp image whenever it was saved, plus the annotated image whenever
annotation succeeded; every visited file lives under `temp/` while the
report file never does (so the report is never deleted); and the HTTP
response is independent of the deletion oracles, so a deletion failure
never replaces the response. -/
theorem claim_C9 :
    (∀ env : AnalyzeEnv, env.hasImage = true →
      env.saveResult = Except.ok () →
      tempImagePath env ∈ (analyze env).2.map Prod.fst) ∧
    (∀ (env : AnalyzeEnv) (ar : List Char)
      (r : List Char × List DrawCmd), env.hasImage = true →
      env.saveResult = Except.ok () → env.analyzeApi = Except.ok ar →
      annotate_imageE env.annotateEnv (tempImagePath env)
          (parse_claude_response ar).1 = Except.ok r →
      r.1 ∈ (analyze env).2.map Prod.fst) ∧
    (∀ (env : AnalyzeEnv) (f : List Char),
      f ∈ (analyze env).2.map Prod.fst → "temp/".toList <+: f) ∧
    (∀ domain ts : List Char,
      ¬ ("temp/".toList <+:
        ("report_".toList ++ domain ++ "_".toList ++ ts ++ ".pdf".toList))) ∧
    (∀ (env : AnalyzeEnv) (f g : List Char → Bool),
      (analyze { env with existsAtCleanup := f, removeOk := g }).1 =
        (analyze env).1) := by
  refine ⟨?_, ?_, ?_, temp_not_prefix_report, ?_⟩
  · -- (A) uploaded temp image always in the cleanup list
    intro env h1 h2
    simp only [analyze, h1, h2]
    rw [if_neg (show ¬(true = false) by simp)]
    split
    · rw [cleanupTrace_fst]
      exact List.mem_singleton.mpr rfl
    · split <;> split_ifs <;> rw [cleanupTrace_fst] <;> simp
  · -- (B) the annotated image, when created, is in the cleanup list
    intro env ar r h1 h2 ha hr
    have hai : annotate_image env.annotateEnv (tempImagePath env)
        (parse_claude_response ar).1 = r.1 := by
      unfold annotate_image
      rw [hr]
    have hne : r.1 ≠ tempImagePath env := by
      rw [annotate_imageE_ok_path hr]
      unfold tempImagePath
      exact annotated_ne_temp _ _
    simp only [analyze, h1, h2, ha, hai]
    rw [if_neg (show ¬(true = false) by simp)]
    split <;> rw [if_pos hne, cleanupTrace_fst] <;> simp
  · -- (C) everything the cleanup loop visits lives under temp/
    intro env f hf
    simp only [analyze] at hf
    by_cases h1 : env.hasImage = false
    · rw [if_pos h1] at hf
      simp at hf
    · rw [if_neg h1] at hf
      split at hf
      · simp [cleanupTrace] at hf
      · split at hf
        · rw [cleanupTrace_fst] at hf
          rw [List.mem_singleton.mp hf]
          exact temp_prefix_tempImagePath env
        · split at hf <;> split_ifs at hf <;>
            rw [cleanupTrace_fst] at hf <;> simp at hf
          · rcases hf with hf | hf
            · rw [hf]
              exact temp_prefix_tempImagePath env
            · rw [hf]
              exact temp_prefix_annotate_image _ _ _
                (temp_prefix_tempImagePath env)
          · rw [hf]
            exact temp_prefix_tempImagePath env
          · rcases hf with hf | hf
            · rw [hf]
              exact temp_prefix_tempImagePath env
            · rw [hf]
              exact temp_prefix_annotate_image _ _ _
                (temp_prefix_tempImagePath env)
          · rw [hf]
            exact temp_prefix_tempImagePath env
  · -- (D) the response does not depend on the deletion oracles
    intro env f g
    simp only [analyze, tempImagePath]
    by_cases h1 : env.hasImage = false
    · rw [if_pos h1, if_pos h1]
    · rw [if_neg h1, if_neg h1]
      cases hsv : env.saveResult with
      | error e => rfl
      | ok u =>
        cases ha : env.analyzeApi with
        | error e => rfl
        | ok ar =>
          dsimp only
          cases hg : generate_pdf_report env.reportEnv ar
              (parse_claude_response ar).2 (detect_domain env.detectApi)
              ("temp/temp_".toList ++ env.ts ++ ".jpg".toList)
              (parse_claude_response ar).1
              (some (annotate_image env.annotateEnv
                ("temp/temp_".toList ++ env.ts ++ ".jpg".toList)
                (parse_claude_response ar).1)) with
          | error e => rfl
          | ok rep => rfl

/-- A fully successful request environment for one `/analyze` request. -/
def witnessEnv : AnalyzeEnv :=
  { hasImage := true,
    saveResult := Except.ok (),
    detectApi := Except.ok ("undersea".toList),
    analyzeApi := Except.ok ("plain model reply".toList),
    annotateEnv :=
      { openResult := Except.ok ⟨640, 480⟩,
        saveResult := Except.ok (),
        ts := "A1".toList },
    reportEnv := { existsFn := (fun _ => true), ts := "R1".toList },
    existsAtCleanup := (fun _ => true),
    removeOk := (fun _ => true),
    ts := "T1".toList }

/-- C9 (witness): the five parts of the claim applied to a concrete
successful request. -/
theorem claim_C9_witness :
    tempImagePath witnessEnv ∈ (analyze witnessEnv).2.map Prod.fst ∧
    ("temp/annotated_".toList ++ "A1".toList ++ ".jpg".toList) ∈
      (analyze witnessEnv).2.map Prod.fst ∧
    ("temp/".toList <+: tempImagePath witnessEnv) ∧
    ¬ ("temp/".toList <+: ("report_".toList ++ "undersea".toList ++
      "_".toList ++ "R1".toList ++ ".pdf".toList)) ∧
    (analyze { witnessEnv with
      existsAtCleanup := (fun _ => false),
      removeOk := (fun _ => false) }).1 = (analyze witnessEnv).1 :=
  ⟨claim_C9.1 witnessEnv rfl rfl,
   claim_C9.2.1 witnessEnv ("plain model reply".toList)
     ("temp/annotated_".toList ++ "A1".toList ++ ".jpg".toList, [])
     rfl rfl rfl (by rfl),
   claim_C9.2.2.1 witnessEnv (tempImagePath witnessEnv) (by decide),
   claim_C9.2.2.2.1 ("undersea".toList) ("R1".toList),
   claim_C9.2.2.2.2 witnessEnv _ _⟩
